import Mathlib

/-!
Shallow embedding of the real-time duplex voice session engine
(`LiveTutorModal` in `src/components/Auth.tsx`): the session controller's
mutable refs, the playback-scheduling logic of `onmessage`, the
`onaudioprocess` capture callback, the `disconnect` teardown sequence and
the `startSession` guard, together with a model of the sample-buffer codec.
Times and durations are rationals (the device clock values); opaque browser
handles (media stream, audio contexts, session promise) are `Option Nat`.
-/

namespace NeuroNote

/-- Session state of `LiveTutorModal` (`useState<'idle' | 'connecting' |
'connected' | 'error' | 'permission-denied'>`). -/
inductive Status where
  | idle
  | connecting
  | connected
  | error
  | permissionDenied
deriving DecidableEq, Repr

/-- A scheduled playback segment: one `AudioBufferSourceNode` created in
`onmessage`, with the start time passed to `source.start` and the decoded
buffer's duration. The `id` identifies the node in the in-flight set. -/
structure Segment where
  id : Nat
  start : ℚ
  duration : ℚ
deriving DecidableEq, Repr

/-- Outcome of `decodeAudioData` on one inbound chunk: a decoded buffer with
a duration, or a decode failure (the `catch (decodeErr)` path). -/
inductive DecodeResult where
  | ok (duration : ℚ)
  | err
deriving DecidableEq, Repr

/-- Duration carried by a decode outcome (0 for a failed decode). -/
def durOf : DecodeResult → ℚ
  | .ok d => d
  | .err => 0

/-- The controller's mutable refs and React state, flattened:
`status`, `isSpeaking`, `inputAudioContextRef`, `outputAudioContextRef`,
`streamRef`, `sessionRef`, `nextStartTimeRef`, `sourcesRef` (the in-flight
set). `stoppedIds` records ids on which `stop()` was called and `nextId`
supplies fresh ids for created source nodes (model bookkeeping for the
otherwise-opaque `AudioBufferSourceNode` objects). -/
structure ControllerState where
  status : Status
  isSpeaking : Bool
  inputAudioContext : Option Nat
  outputAudioContext : Option Nat
  stream : Option Nat
  sessionRef : Option Nat
  nextStartTime : ℚ
  sources : List Segment
  stoppedIds : List Nat
  nextId : Nat
  isSessionActive : Bool
deriving DecidableEq, Repr

/-- The audio branch of the `onmessage` callback: `setIsSpeaking(true)`,
guard on the output context, `nextStartTimeRef.current =
Math.max(nextStartTimeRef.current, ctx.currentTime)`, then decode; on
success `source.start(nextStartTimeRef.current)`,
`nextStartTimeRef.current += audioBuffer.duration`,
`sourcesRef.current.add(source)`; on decode failure only a warning.
Returns the new state and the list of segments scheduled (empty or one). -/
def onmessageAudio (s : ControllerState) (now : ℚ) (d : DecodeResult) :
    ControllerState × List Segment :=
  let s1 := { s with isSpeaking := true }
  match s1.outputAudioContext with
  | none => (s1, [])
  | some _ =>
    let c := max s1.nextStartTime now
    match d with
    | .err => ({ s1 with nextStartTime := c }, [])
    | .ok dur =>
      let seg : Segment := { id := s1.nextId, start := c, duration := dur }
      ({ s1 with nextStartTime := c + dur, sources := seg :: s1.sources,
                 nextId := s1.nextId + 1 }, [seg])

/-- The `interrupted` branch of `onmessage`: `s.stop()` on every in-flight
source, `sourcesRef.current.clear()`, `nextStartTimeRef.current = 0`,
`setIsSpeaking(false)`. -/
def onmessageInterrupted (s : ControllerState) : ControllerState :=
  { s with sources := [],
           stoppedIds := s.sources.map (·.id) ++ s.stoppedIds,
           nextStartTime := 0,
           isSpeaking := false }

/-- The `onclose` callback: `isSessionActive.current = false;
sessionRef.current = null`. Nothing else is touched. -/
def onclose (s : ControllerState) : ControllerState :=
  { s with isSessionActive := false, sessionRef := none }

/-- The `ended` listener on a source node: delete the node from the
in-flight set; when the set drains to empty, `setIsSpeaking(false)`. -/
def onended (s : ControllerState) (segId : Nat) : ControllerState :=
  let remaining := s.sources.filter (fun seg => seg.id != segId)
  { s with sources := remaining,
           isSpeaking := if remaining.isEmpty then false else s.isSpeaking }

/-- Fold `onmessageAudio` over a sequence of inbound audio chunks, each an
observed device-clock value paired with its decode outcome; returns the
final state and the segments scheduled, in scheduling order. -/
def runOnmessages (s : ControllerState) :
    List (ℚ × DecodeResult) → ControllerState × List Segment
  | [] => (s, [])
  | (now, d) :: rest =>
    let p := onmessageAudio s now d
    let q := runOnmessages p.1 rest
    (q.1, p.2 ++ q.2)

/-- Environment for one `onaudioprocess` invocation: whether the session
promise rejects, whether `isSessionActive` still holds when the promise
resolves, and whether `session.sendRealtimeInput` throws. -/
structure SendEnv where
  promiseRejects : Bool
  activeAtResolve : Bool
  sendThrows : Bool
deriving DecidableEq, Repr

/-- What became of one captured audio frame. -/
inductive FrameFate where
  | droppedEarly
  | warnLogged
  | ignoredRejection
  | droppedAtResolve
  | sendSwallowed
  | sent
deriving DecidableEq, Repr

/-- The raw `session.sendRealtimeInput({ media: pcmBlob })` call, which may
throw when the session has closed in the background. -/
def rawSendRealtimeInput (throws : Bool) : Except String Unit :=
  if throws then Except.error "session closed" else Except.ok ()

/-- The `onaudioprocess` capture callback: guard
`if (!sessionRef.current || !isSessionActive.current) return`, then
`sessionPromise.then(...)` with an inner `isSessionActive` re-check and a
`try { sendRealtimeInput } catch {}`, and a `.catch` that only warns.
An `Except.error` result would be an exception escaping the callback. -/
def onaudioprocess (env : SendEnv) (s : ControllerState) :
    Except String FrameFate :=
  if s.sessionRef.isNone || !s.isSessionActive then Except.ok .droppedEarly
  else if env.promiseRejects then
    Except.ok (if env.activeAtResolve then .warnLogged else .ignoredRejection)
  else if !env.activeAtResolve then Except.ok .droppedAtResolve
  else
    match rawSendRealtimeInput env.sendThrows with
    | .error _ => Except.ok .sendSwallowed
    | .ok _ => Except.ok .sent

/-- One step of the `disconnect` teardown sequence, in source order:
stop the media-stream tracks, close the input audio context, close the
output audio context, await the session promise and close the session,
stop the remaining source nodes. -/
inductive TeardownAction where
  | stopCaptureTracks
  | closeInputContext
  | closeOutputContext
  | awaitSessionClose
  | stopSources
deriving DecidableEq, Repr

/-- The ordered list of teardown actions `disconnect` performs from a given
state: each guarded step contributes its action exactly when the
corresponding ref is non-null, in the textual order of the source. -/
def disconnectActions (s : ControllerState) : List TeardownAction :=
  (if s.stream.isSome then [TeardownAction.stopCaptureTracks] else []) ++
  (if s.inputAudioContext.isSome then [TeardownAction.closeInputContext] else []) ++
  (if s.outputAudioContext.isSome then [TeardownAction.closeOutputContext] else []) ++
  (if s.sessionRef.isSome then [TeardownAction.awaitSessionClose] else []) ++
  [TeardownAction.stopSources]

/-- The state `disconnect(nextStatus)` leaves behind: every ref nulled,
`setStatus(nextStatus)`, `setIsSpeaking(false)`, all remaining sources
stopped and cleared, `nextStartTimeRef.current = 0`. -/
def disconnectPure (nextStatus : Status) (s : ControllerState) : ControllerState :=
  { status := nextStatus
    isSpeaking := false
    inputAudioContext := none
    outputAudioContext := none
    stream := none
    sessionRef := none
    nextStartTime := 0
    sources := []
    stoppedIds := s.sources.map (·.id) ++ s.stoppedIds
    nextId := s.nextId
    isSessionActive := false }

/-- Environment for one `disconnect` run: which of the awaited operations
fail (context `close()` rejections, the pending connect promise rejecting,
`session.close()` failing). -/
structure DisconnectEnv where
  inputCloseFails : Bool
  outputCloseFails : Bool
  connectRejects : Bool
  sessionCloseFails : Bool
deriving DecidableEq, Repr

/-- `try { ... } catch (e) { console.warn(...) }`: the error is swallowed
and execution continues. -/
def tryIgnore (r : Except String Unit) : Except String Unit :=
  match r with
  | .error _ => Except.ok ()
  | .ok _ => Except.ok ()

/-- Raw `inputAudioContextRef.current.close()`. -/
def inputCloseRaw (env : DisconnectEnv) (s : ControllerState) : Except String Unit :=
  if s.inputAudioContext.isSome && env.inputCloseFails then
    Except.error "Error closing input context"
  else Except.ok ()

/-- Raw `outputAudioContextRef.current.close()`. -/
def outputCloseRaw (env : DisconnectEnv) (s : ControllerState) : Except String Unit :=
  if s.outputAudioContext.isSome && env.outputCloseFails then
    Except.error "Error closing output context"
  else Except.ok ()

/-- Raw `await currentSession; await session.close()`: rejects when the
pending connect promise rejects or the close itself fails. -/
def sessionCloseRaw (env : DisconnectEnv) (s : ControllerState) : Except String Unit :=
  if s.sessionRef.isSome && (env.connectRejects || env.sessionCloseFails) then
    Except.error "session close failed"
  else Except.ok ()

/-- The `disconnect(nextStatus)` teardown: each awaited step is wrapped in
the source's `try/catch` (errors swallowed), then the refs are cleared and
the state reset. An `Except.error` result would be `disconnect` itself
throwing. -/
def disconnectRun (env : DisconnectEnv) (nextStatus : Status)
    (s : ControllerState) : Except String ControllerState :=
  match tryIgnore (inputCloseRaw env s) with
  | .error e => Except.error e
  | .ok _ =>
    match tryIgnore (outputCloseRaw env s) with
    | .error e => Except.error e
    | .ok _ =>
      match tryIgnore (sessionCloseRaw env s) with
      | .error e => Except.error e
      | .ok _ => Except.ok (disconnectPure nextStatus s)

/-- Environment for one `startSession` call: ids for the freshly created
audio contexts, the `getUserMedia` outcome (`none` = permission denied),
whether `ai.live.connect` throws synchronously, and the id of the session
promise stored in `sessionRef`. -/
structure StartEnv where
  inputId : Nat
  outputId : Nat
  mic : Option Nat
  connectThrows : Bool
  sessionId : Nat
deriving DecidableEq, Repr

/-- `startSession`: the guard
`if (sessionRef.current || status === 'connected' || status === 'connecting') return`,
then `setStatus('connecting')`, audio-context creation, `getUserMedia`
(on denial `disconnect('permission-denied')`), connect (on synchronous
failure `disconnect('error')`), and finally `sessionRef.current = sessionPromise`. -/
def startSession (env : StartEnv) (s : ControllerState) : ControllerState :=
  if s.sessionRef.isSome = true ∨ s.status = Status.connected ∨ s.status = Status.connecting then s
  else
    let s1 := { s with status := Status.connecting,
                       inputAudioContext := some env.inputId,
                       outputAudioContext := some env.outputId }
    match env.mic with
    | none => disconnectPure Status.permissionDenied s1
    | some m =>
      let s2 := { s1 with stream := some m }
      if env.connectThrows then disconnectPure Status.error s2
      else { s2 with sessionRef := some env.sessionId }

/-- The `onopen` callback: `isSessionActive.current = true;
setStatus('connected')`. -/
def onopen (s : ControllerState) : ControllerState :=
  { s with isSessionActive := true, status := Status.connected }

/-- Modelled from the spec: `src/services/audioUtils.ts` (the Sample Buffer
Codec, `createPcmBlob` and `decodeAudioData`) is imported by the component
but absent from the provided sources. Per the spec's contract, `encode`
"clamps each sample to the representable integer range, converts to
fixed-point, little-endian byte order": one float sample in [-1,1] becomes
a signed 16-bit fixed-point value. -/
def encodeSample (x : ℚ) : ℤ :=
  max (-32768) (min 32767 ⌊x * 32768⌋)

/-- Modelled from the spec: the decode direction of the absent Sample
Buffer Codec, mapping a signed 16-bit fixed-point value back to a float
sample. -/
def decodeSample (v : ℤ) : ℚ :=
  (v : ℚ) / 32768

/-- Modelled from the spec: `encode` over a block of float frames; empty
input yields empty output. -/
def encode (xs : List ℚ) : List ℤ :=
  xs.map encodeSample

/-- Modelled from the spec: `decode` over a block of fixed-point values. -/
def decode (vs : List ℤ) : List ℚ :=
  vs.map decodeSample

/-- A fully connected state with all handles live, used as concrete input. -/
def sFull : ControllerState :=
  { status := Status.connected
    isSpeaking := false
    inputAudioContext := some 1
    outputAudioContext := some 2
    stream := some 0
    sessionRef := some 3
    nextStartTime := 0
    sources := []
    stoppedIds := []
    nextId := 0
    isSessionActive := true }

/-- An idle state with no handles, as after construction. -/
def sIdle : ControllerState :=
  { status := Status.idle
    isSpeaking := false
    inputAudioContext := none
    outputAudioContext := none
    stream := none
    sessionRef := none
    nextStartTime := 0
    sources := []
    stoppedIds := []
    nextId := 0
    isSessionActive := false }

/-- A connected state with two in-flight segments and a nonzero cursor. -/
def sBusy : ControllerState :=
  { sFull with sources := [{ id := 5, start := 0, duration := 3 },
                           { id := 6, start := 3, duration := 2 }],
               nextStartTime := 5, nextId := 7, isSpeaking := true }

/-- A `try/catch` whose handler swallows the error always succeeds. -/
theorem tryIgnore_ok (r : Except String Unit) : tryIgnore r = Except.ok () := by
  cases r <;> rfl

/-- In the teardown trace, stopping the capture tracks precedes awaiting
the session close whenever both steps run. -/
theorem sublist_capture_await (s : ControllerState)
    (h1 : s.stream.isSome = true) (h2 : s.sessionRef.isSome = true) :
    List.Sublist [TeardownAction.stopCaptureTracks, TeardownAction.awaitSessionClose]
      (disconnectActions s) := by
  unfold disconnectActions
  cases h3 : s.inputAudioContext.isSome <;> cases h4 : s.outputAudioContext.isSome <;>
    simp [h1, h2, h3, h4]

/-- In the teardown trace, closing the output audio context precedes
awaiting the session close whenever both steps run. -/
theorem sublist_output_await (s : ControllerState)
    (h1 : s.outputAudioContext.isSome = true) (h2 : s.sessionRef.isSome = true) :
    List.Sublist [TeardownAction.closeOutputContext, TeardownAction.awaitSessionClose]
      (disconnectActions s) := by
  unfold disconnectActions
  cases h3 : s.stream.isSome <;> cases h4 : s.inputAudioContext.isSome <;>
    simp [h1, h2, h3, h4]

/-- C2 counterexample: on a fully connected state, `disconnect` does NOT
await the transport close before releasing the output audio device — the
output context is closed first, so the claimed order
(capture before transport-await AND transport-await before output release)
fails on the code. -/
theorem c2_teardown_order_counterexample :
    ¬ (List.Sublist [TeardownAction.stopCaptureTracks, TeardownAction.awaitSessionClose]
         (disconnectActions sFull) ∧
       List.Sublist [TeardownAction.awaitSessionClose, TeardownAction.closeOutputContext]
         (disconnectActions sFull)) := by
  decide

/-- C2 (amended): during teardown the capture device is stopped before the
transport close is awaited, and the output audio device is released BEFORE
(not after) the transport close is awaited. -/
theorem c2_teardown_order (s : ControllerState)
    (hstr : s.stream.isSome = true) (hout : s.outputAudioContext.isSome = true)
    (hsess : s.sessionRef.isSome = true) :
    List.Sublist [TeardownAction.stopCaptureTracks, TeardownAction.awaitSessionClose]
      (disconnectActions s) ∧
    List.Sublist [TeardownAction.closeOutputContext, TeardownAction.awaitSessionClose]
      (disconnectActions s) :=
  ⟨sublist_capture_await s hstr hsess, sublist_output_await s hout hsess⟩

/-- Witness for C2 (amended) on the fully connected state. -/
theorem c2_teardown_order_witness :
    List.Sublist [TeardownAction.stopCaptureTracks, TeardownAction.awaitSessionClose]
      (disconnectActions sFull) ∧
    List.Sublist [TeardownAction.closeOutputContext, TeardownAction.awaitSessionClose]
      (disconnectActions sFull) :=
  c2_teardown_order sFull rfl rfl rfl

/-- C7: `disconnect` is safe from every state: every awaited sub-step's
failure (including a pending connect promise that rejects) is swallowed, so
the run always succeeds and yields the fully torn-down state; a second
invocation after teardown changes nothing; and the capture device is
stopped before the pending session promise is awaited, so teardown does not
wait on the connect. -/
theorem c7_stop_safe (env : DisconnectEnv) (nextStatus : Status) (s : ControllerState) :
    disconnectRun env nextStatus s = Except.ok (disconnectPure nextStatus s) ∧
    disconnectPure Status.idle (disconnectPure Status.idle s) = disconnectPure Status.idle s ∧
    (s.stream.isSome = true → s.sessionRef.isSome = true →
      List.Sublist [TeardownAction.stopCaptureTracks, TeardownAction.awaitSessionClose]
        (disconnectActions s)) := by
  refine ⟨?_, ?_, fun h1 h2 => sublist_capture_await s h1 h2⟩
  · simp [disconnectRun, tryIgnore_ok]
  · simp [disconnectPure]

/-- Witness for C7: a mid-`connecting` state where every awaited step
fails still tears down cleanly, and capture stop precedes the session
await. -/
theorem c7_stop_safe_witness :
    disconnectRun { inputCloseFails := true, outputCloseFails := true,
                    connectRejects := true, sessionCloseFails := true }
        Status.idle { sFull with status := Status.connecting } =
      Except.ok (disconnectPure Status.idle { sFull with status := Status.connecting }) ∧
    List.Sublist [TeardownAction.stopCaptureTracks, TeardownAction.awaitSessionClose]
      (disconnectActions { sFull with status := Status.connecting }) := by
  have h := c7_stop_safe
    { inputCloseFails := true, outputCloseFails := true,
      connectRejects := true, sessionCloseFails := true }
    Status.idle { sFull with status := Status.connecting }
  exact ⟨h.1, h.2.2 rfl rfl⟩

/-- C10: the `onclose` callback leaves the session status (and every other
field) unchanged, only clears the session ref and drops the active flag,
after which a capture frame is silently discarded. -/
theorem c10_onclose_keeps_status (s : ControllerState) (env : SendEnv) :
    (onclose s).status = s.status ∧
    (onclose s).sessionRef = none ∧
    (onclose s).isSessionActive = false ∧
    (onclose s).stream = s.stream ∧
    (onclose s).inputAudioContext = s.inputAudioContext ∧
    (onclose s).outputAudioContext = s.outputAudioContext ∧
    (onclose s).sources = s.sources ∧
    (onclose s).nextStartTime = s.nextStartTime ∧
    (onclose s).isSpeaking = s.isSpeaking ∧
    onaudioprocess env (onclose s) = Except.ok FrameFate.droppedEarly := by
  refine ⟨rfl, rfl, rfl, rfl, rfl, rfl, rfl, rfl, rfl, ?_⟩
  simp [onaudioprocess, onclose]

/-- C6: the capture callback never lets an exception escape — for every
environment (promise rejection, late deactivation, a throwing send) the
result is `Except.ok` — and once teardown has begun (session ref cleared or
session marked inactive) the frame is silently dropped by the first
guard. -/
theorem c6_late_frame_dropped (env : SendEnv) (s : ControllerState) :
    (∃ f, onaudioprocess env s = Except.ok f) ∧
    (s.sessionRef = none ∨ s.isSessionActive = false →
      onaudioprocess env s = Except.ok FrameFate.droppedEarly) := by
  constructor
  · unfold onaudioprocess
    split
    · exact ⟨_, rfl⟩
    · split
      · exact ⟨_, rfl⟩
      · split
        · exact ⟨_, rfl⟩
        · rcases h : rawSendRealtimeInput env.sendThrows with e | u
          · exact ⟨FrameFate.sendSwallowed, rfl⟩
          · exact ⟨FrameFate.sent, rfl⟩
  · rintro (h | h) <;> simp [onaudioprocess, h]

/-- Witness for C6: a frame arriving after `onclose` is dropped. -/
theorem c6_late_frame_dropped_witness :
    onaudioprocess { promiseRejects := false, activeAtResolve := true, sendThrows := false }
      (onclose sFull) = Except.ok FrameFate.droppedEarly :=
  (c6_late_frame_dropped
    { promiseRejects := false, activeAtResolve := true, sendThrows := false }
    (onclose sFull)).2 (Or.inl rfl)

/-- C5: `startSession` while a session ref exists or the status is already
`connecting`/`connected` is a no-op, and after a successful first call a
second call in immediate succession changes nothing — one transition, one
set of handles. -/
theorem c5_start_noop (env env' : StartEnv) (s : ControllerState) :
    (s.sessionRef.isSome = true ∨ s.status = Status.connecting ∨ s.status = Status.connected →
      startSession env s = s) ∧
    (s.sessionRef = none → s.status ≠ Status.connecting → s.status ≠ Status.connected →
      ∀ m, env.mic = some m → env.connectThrows = false →
      startSession env' (startSession env s) = startSession env s) := by
  constructor
  · rintro (h | h | h) <;> simp [startSession, h]
  · intro h1 h2 h3 m hm h5
    have hstep : startSession env s =
        { s with status := Status.connecting,
                 inputAudioContext := some env.inputId,
                 outputAudioContext := some env.outputId,
                 stream := some m,
                 sessionRef := some env.sessionId } := by
      simp [startSession, h1, h2, h3, hm, h5]
    rw [hstep]
    simp [startSession]

/-- Witness for C5: two immediate `startSession` calls from idle collapse
to one. -/
theorem c5_start_noop_witness :
    startSession { inputId := 10, outputId := 11, mic := some 12, connectThrows := false, sessionId := 13 }
        (startSession { inputId := 4, outputId := 5, mic := some 6, connectThrows := false, sessionId := 7 } sIdle)
      = startSession { inputId := 4, outputId := 5, mic := some 6, connectThrows := false, sessionId := 7 } sIdle :=
  (c5_start_noop
    { inputId := 4, outputId := 5, mic := some 6, connectThrows := false, sessionId := 7 }
    { inputId := 10, outputId := 11, mic := some 12, connectThrows := false, sessionId := 13 }
    sIdle).2 rfl (by decide) (by decide) 6 rfl rfl

/-- C8: a decode failure in `onmessage` drops the chunk and nothing else:
status, session ref, stream, contexts and the in-flight set are unchanged,
no segment is scheduled, and a subsequent well-formed chunk is still
enqueued (the in-flight set grows by one). -/
theorem c8_decode_failure_recovered (s : ControllerState) (now : ℚ) :
    ((onmessageAudio s now DecodeResult.err).1.status = s.status ∧
     (onmessageAudio s now DecodeResult.err).1.sessionRef = s.sessionRef ∧
     (onmessageAudio s now DecodeResult.err).1.stream = s.stream ∧
     (onmessageAudio s now DecodeResult.err).1.inputAudioContext = s.inputAudioContext ∧
     (onmessageAudio s now DecodeResult.err).1.outputAudioContext = s.outputAudioContext ∧
     (onmessageAudio s now DecodeResult.err).1.sources = s.sources ∧
     (onmessageAudio s now DecodeResult.err).1.isSessionActive = s.isSessionActive ∧
     (onmessageAudio s now DecodeResult.err).2 = []) ∧
    (∀ now' dur, s.outputAudioContext.isSome = true →
      ((onmessageAudio (onmessageAudio s now DecodeResult.err).1 now'
          (DecodeResult.ok dur)).1.sources).length = s.sources.length + 1) := by
  constructor
  · cases h : s.outputAudioContext <;> simp [onmessageAudio, h]
  · intro now' dur h
    obtain ⟨c, hc⟩ := Option.isSome_iff_exists.mp h
    simp [onmessageAudio, hc]

/-- Witness for C8: after a failed decode on the connected state, the next
good chunk still lands in the in-flight set. -/
theorem c8_decode_failure_recovered_witness :
    ((onmessageAudio (onmessageAudio sFull 0 DecodeResult.err).1 1
        (DecodeResult.ok 2)).1.sources).length = sFull.sources.length + 1 :=
  (c8_decode_failure_recovered sFull 0).2 1 2 rfl

/-- C3: the `interrupted` branch stops every in-flight segment, empties the
in-flight set, resets the cursor to 0 and clears the speaking flag, so the
next enqueue starts at the device clock's current time. -/
theorem c3_interrupt_clears (s : ControllerState) (now dur : ℚ) (hnow : 0 ≤ now) :
    (onmessageInterrupted s).sources = [] ∧
    (∀ seg ∈ s.sources, seg.id ∈ (onmessageInterrupted s).stoppedIds) ∧
    (onmessageInterrupted s).nextStartTime = 0 ∧
    (onmessageInterrupted s).isSpeaking = false ∧
    (s.outputAudioContext.isSome = true →
      (onmessageAudio (onmessageInterrupted s) now (DecodeResult.ok dur)).2
        = [{ id := s.nextId, start := now, duration := dur }]) := by
  refine ⟨rfl, ?_, rfl, rfl, ?_⟩
  · intro seg hseg
    simp only [onmessageInterrupted, List.mem_append, List.mem_map]
    exact Or.inl ⟨seg, hseg, rfl⟩
  · intro h
    obtain ⟨c, hc⟩ := Option.isSome_iff_exists.mp h
    simp [onmessageAudio, onmessageInterrupted, hc, max_eq_right hnow]

/-- Witness for C3: interrupting the busy state with two in-flight
segments; the next chunk starts at the clock time 5, not the old cursor. -/
theorem c3_interrupt_clears_witness :
    (onmessageAudio (onmessageInterrupted sBusy) 5 (DecodeResult.ok 2)).2
      = [{ id := 7, start := 5, duration := 2 }] :=
  (c3_interrupt_clears sBusy 5 2 (by norm_num)).2.2.2.2 rfl

/-- One `onmessage` audio step never moves the cursor backwards (given a
nonnegative decoded duration), schedules at most one segment, and every
segment it schedules starts at or after the old cursor and ends at or
before the new cursor. -/
theorem onmessageAudio_step (s : ControllerState) (now : ℚ) (d : DecodeResult)
    (hd : 0 ≤ durOf d) :
    s.nextStartTime ≤ (onmessageAudio s now d).1.nextStartTime ∧
    (∀ seg ∈ (onmessageAudio s now d).2,
      s.nextStartTime ≤ seg.start ∧
      seg.start + seg.duration ≤ (onmessageAudio s now d).1.nextStartTime) ∧
    List.Pairwise (fun a b => a.start + a.duration ≤ b.start) (onmessageAudio s now d).2 := by
  cases h : s.outputAudioContext with
  | none => simp [onmessageAudio, h]
  | some c =>
    cases d with
    | err => simp [onmessageAudio, h, le_max_left]
    | ok dur =>
      simp only [durOf] at hd
      refine ⟨?_, ?_, ?_⟩
      · simp only [onmessageAudio, h]
        calc s.nextStartTime ≤ max s.nextStartTime now := le_max_left _ _
          _ ≤ max s.nextStartTime now + dur := le_add_of_nonneg_right hd
      · intro seg hseg
        simp only [onmessageAudio, h, List.mem_singleton] at hseg
        subst hseg
        exact ⟨le_max_left _ _, by simp [onmessageAudio, h]⟩
      · simp [onmessageAudio, h]

/-- Run invariant: over any sequence of inbound audio chunks with
nonnegative decoded durations, the cursor never decreases, every scheduled
segment lies between the initial and final cursor, and the scheduled
segments are pairwise non-overlapping in scheduling order. -/
theorem runOnmessages_inv (tr : List (ℚ × DecodeResult)) :
    ∀ s : ControllerState, (∀ p ∈ tr, 0 ≤ durOf p.2) →
      s.nextStartTime ≤ (runOnmessages s tr).1.nextStartTime ∧
      (∀ seg ∈ (runOnmessages s tr).2,
        s.nextStartTime ≤ seg.start ∧
        seg.start + seg.duration ≤ (runOnmessages s tr).1.nextStartTime) ∧
      List.Pairwise (fun a b => a.start + a.duration ≤ b.start) (runOnmessages s tr).2 := by
  induction tr with
  | nil =>
    intro s _
    exact ⟨le_refl _, by simp [runOnmessages], by simp [runOnmessages]⟩
  | cons p rest ih =>
    intro s h
    obtain ⟨now, d⟩ := p
    have hd : 0 ≤ durOf d := h (now, d) (List.mem_cons_self _ _)
    have hrest : ∀ q ∈ rest, 0 ≤ durOf q.2 := fun q hq => h q (List.mem_cons_of_mem _ hq)
    have hstep := onmessageAudio_step s now d hd
    have hind := ih (onmessageAudio s now d).1 hrest
    simp only [runOnmessages]
    refine ⟨hstep.1.trans hind.1, ?_, ?_⟩
    · intro seg hseg
      rcases List.mem_append.mp hseg with hseg | hseg
      · exact ⟨(hstep.2.1 seg hseg).1, ((hstep.2.1 seg hseg).2).trans hind.1⟩
      · exact ⟨hstep.1.trans (hind.2.1 seg hseg).1, (hind.2.1 seg hseg).2⟩
    · refine List.pairwise_append.mpr ⟨hstep.2.2, hind.2.2, ?_⟩
      intro a ha b hb
      exact ((hstep.2.1 a ha).2).trans (hind.2.1 b hb).1

/-- C1: over any connected run of inbound audio chunks with no interruption
and nonnegative decoded durations, the scheduled segments never overlap
(each segment ends at or before any later segment starts), and each
scheduled segment starts exactly at `max(cursor, deviceClock.now())`. -/
theorem c1_segments_never_overlap (s : ControllerState) (tr : List (ℚ × DecodeResult))
    (hdur : ∀ p ∈ tr, 0 ≤ durOf p.2) :
    List.Pairwise (fun a b => a.start + a.duration ≤ b.start) (runOnmessages s tr).2 ∧
    (∀ t : ControllerState, ∀ now dur : ℚ, t.outputAudioContext.isSome = true →
      (onmessageAudio t now (DecodeResult.ok dur)).2
        = [{ id := t.nextId, start := max t.nextStartTime now, duration := dur }]) := by
  refine ⟨(runOnmessages_inv tr s hdur).2.2, ?_⟩
  intro t now dur h
  obtain ⟨c, hc⟩ := Option.isSome_iff_exists.mp h
  simp [onmessageAudio, hc]

/-- Witness for C1: a four-chunk run (including one decode failure and one
clock jump past the cursor) schedules pairwise non-overlapping segments. -/
theorem c1_segments_never_overlap_witness :
    List.Pairwise (fun a b => a.start + a.duration ≤ b.start)
      (runOnmessages sFull
        [(0, DecodeResult.ok 1), (5, DecodeResult.ok 2),
         (2, DecodeResult.err), (3, DecodeResult.ok 1)]).2 :=
  (c1_segments_never_overlap sFull
    [(0, DecodeResult.ok 1), (5, DecodeResult.ok 2),
     (2, DecodeResult.err), (3, DecodeResult.ok 1)]
    (by norm_num [durOf])).1

/-- C4: after an enqueue the cursor equals `max(old cursor, now) + duration`,
which is at least the old cursor when the duration is nonnegative, and over
any chunk stream with nonnegative durations the cursor is monotonically
non-decreasing. -/
theorem c4_cursor_monotone (s t : ControllerState) (now dur : ℚ)
    (tr : List (ℚ × DecodeResult)) (hdur : 0 ≤ dur)
    (htr : ∀ p ∈ tr, 0 ≤ durOf p.2) (h : t.outputAudioContext.isSome = true) :
    (onmessageAudio t now (DecodeResult.ok dur)).1.nextStartTime
      = max t.nextStartTime now + dur ∧
    t.nextStartTime ≤ (onmessageAudio t now (DecodeResult.ok dur)).1.nextStartTime ∧
    s.nextStartTime ≤ (runOnmessages s tr).1.nextStartTime := by
  obtain ⟨c, hc⟩ := Option.isSome_iff_exists.mp h
  refine ⟨by simp [onmessageAudio, hc], ?_, (runOnmessages_inv tr s htr).1⟩
  exact (onmessageAudio_step t now (DecodeResult.ok dur) (by simpa [durOf] using hdur)).1

/-- Witness for C4: one enqueue on the busy state (cursor 5, clock 2,
duration 3) moves the cursor from 5 to 8. -/
theorem c4_cursor_monotone_witness :
    (onmessageAudio sBusy 2 (DecodeResult.ok 3)).1.nextStartTime
      = max sBusy.nextStartTime 2 + 3 ∧
    sBusy.nextStartTime ≤ (onmessageAudio sBusy 2 (DecodeResult.ok 3)).1.nextStartTime ∧
    sFull.nextStartTime ≤ (runOnmessages sFull [(0, DecodeResult.ok 1)]).1.nextStartTime :=
  c4_cursor_monotone sFull sBusy 2 3 [(0, DecodeResult.ok 1)]
    (by norm_num) (by norm_num [durOf]) rfl

/-- One sample's encode-then-decode round trip stays within the fixed-point
quantization step `1/32768` for any in-range sample. -/
theorem roundtrip_sample (x : ℚ) (h1 : -1 ≤ x) (h2 : x ≤ 1) :
    |x - decodeSample (encodeSample x)| ≤ 1 / 32768 := by
  have hfl : (⌊x * 32768⌋ : ℚ) ≤ x * 32768 := Int.floor_le _
  have hfg : x * 32768 - 1 < (⌊x * 32768⌋ : ℚ) := Int.sub_one_lt_floor _
  have hlow : (-32768 : ℤ) ≤ ⌊x * 32768⌋ := by
    apply Int.le_floor.mpr
    push_cast
    nlinarith
  by_cases hhi : ⌊x * 32768⌋ ≤ 32767
  · have henc : encodeSample x = ⌊x * 32768⌋ := by
      unfold encodeSample
      rw [min_eq_right hhi, max_eq_right hlow]
    rw [henc]
    unfold decodeSample
    rw [abs_le]
    constructor <;> linarith
  · push_neg at hhi
    have hub : ⌊x * 32768⌋ ≤ 32768 := by
      have : x * 32768 ≤ ((32768 : ℤ) : ℚ) := by push_cast; nlinarith
      calc ⌊x * 32768⌋ ≤ ⌊((32768 : ℤ) : ℚ)⌋ := Int.floor_le_floor this
        _ = 32768 := Int.floor_intCast _
    have hf : ⌊x * 32768⌋ = 32768 := le_antisymm hub (by omega)
    have hx1 : x = 1 := by
      have : ((32768 : ℤ) : ℚ) ≤ x * 32768 := Int.le_floor.mp (le_of_eq hf.symm)
      push_cast at this
      nlinarith
    have henc : encodeSample x = 32767 := by
      unfold encodeSample
      rw [hf]
      norm_num
    rw [henc, hx1]
    unfold decodeSample
    rw [abs_le]
    constructor <;> norm_num

/-- C9: the modelled codec's encode-then-decode round trip: empty input
encodes to empty output, an all-zero block round-trips losslessly, and any
block of in-range samples (so in particular a full-scale sine block)
round-trips within the fixed-point quantization tolerance `1/32768`. -/
theorem c9_roundtrip :
    encode [] = [] ∧
    (∀ n : Nat, decode (encode (List.replicate n 0)) = List.replicate n 0) ∧
    (∀ xs : List ℚ, (∀ x ∈ xs, -1 ≤ x ∧ x ≤ 1) →
      List.Forall₂ (fun x y => |x - y| ≤ 1 / 32768) xs (decode (encode xs))) := by
  refine ⟨rfl, ?_, ?_⟩
  · intro n
    have h0 : decodeSample (encodeSample 0) = 0 := by
      norm_num [encodeSample, decodeSample]
    simp [decode, encode, List.map_replicate, h0]
  · intro xs
    induction xs with
    | nil => intro _; simp [encode, decode]
    | cons a as ih =>
      intro hxs
      simp only [encode, decode, List.map_cons]
      refine List.Forall₂.cons ?_ ?_
      · exact roundtrip_sample a (hxs a (by simp)).1 (hxs a (by simp)).2
      · exact ih (fun x hx => hxs x (by simp [hx]))

/-- Witness for C9: a concrete block holding silence, both full-scale
extremes and a half-scale sample round-trips within tolerance. -/
theorem c9_roundtrip_witness :
    List.Forall₂ (fun x y => |x - y| ≤ 1 / 32768) [(0 : ℚ), 1, -1, 1 / 2]
      (decode (encode [(0 : ℚ), 1, -1, 1 / 2])) :=
  c9_roundtrip.2.2 [0, 1, -1, 1 / 2] (by norm_num)

end NeuroNote
